import Mathlib

/-!
Verification of the NWACC municipal-directory scrapers.

This file gives a shallow embedding, in Lean 4, of the pure logic of the two
scraping pipelines (`scrape_municipal_staff.py` and `civicplus_scraper.py`)
and of the adaptive rate limiter (`old stuff/government_website_finder.py`).
Network I/O is modelled by explicit traces (functions from attempt number to
request result), parsed HTML pages by structures holding what BeautifulSoup
exposes to the extraction code, files by explicit row lists with a flushed
watermark, and wall-clock time by explicit `Nat` parameters.
-/

namespace NWACC

/-! ## Shared string helpers -/

/-- Python `\s` on the relevant inputs: ASCII whitespace (space, tab,
newline, carriage return, vertical tab, form feed). -/
def pyIsSpace (c : Char) : Bool :=
  c = ' ' || c = '\t' || c = '\n' || c = '\r' || c = '\x0b' || c = '\x0c'

/-- `startsWithL pat s`: `s` begins with `pat` (Python `str.startswith` on
the underlying characters). -/
def startsWithL : List Char → List Char → Bool
  | [], _ => true
  | _ :: _, [] => false
  | p :: ps, c :: cs => if p = c then startsWithL ps cs else false

/-- Python's `pat in s` substring test, on character lists. -/
def containsSubL (pat : List Char) : List Char → Bool
  | [] => startsWithL pat []
  | c :: cs => startsWithL pat (c :: cs) || containsSubL pat cs

/-- Python's `pat in s` substring test on strings. -/
def strContainsSub (s pat : String) : Bool :=
  containsSubL pat.data s.data

/-- Python `s.startswith(pat)` (code-point based). -/
def pyStartsWith (s pat : String) : Bool :=
  startsWithL pat.data s.data

/-- Python `s[n:]` (code-point based). -/
def pyDrop (s : String) (n : Nat) : String :=
  ⟨s.data.drop n⟩

/-- Python `s.lower()` (code-point based). -/
def pyLower (s : String) : String :=
  ⟨s.data.map Char.toLower⟩

/-! ## Configuration constants (from the two scrapers' module headers) -/

/-- `MAX_RETRIES = 3` in `scrape_municipal_staff.py`. -/
def MAX_RETRIES : Nat := 3

/-- `RETRY_DELAY = 1` second in `scrape_municipal_staff.py`. -/
def RETRY_DELAY : Nat := 1

/-- `REQUEST_RETRY_ATTEMPTS = 3` in `civicplus_scraper.py`. -/
def REQUEST_RETRY_ATTEMPTS : Nat := 3

/-! ## JavaScript e-mail de-obfuscation (`extract_email_from_javascript`)

The Python function searches the raw HTML with
`re.search(r'var\s+wsd\s*=\s*["\']([^"\']+)["\']', html, re.IGNORECASE)`
(and the same for `xsd`), falling back to the pattern
`["\']([^"\']+)["\']\s*\+\s*["\']@["\']\s*\+\s*["\']([^"\']+)["\']`.
Every quantified piece of these patterns is a greedy run of a character
class followed by a literal the class excludes, so leftmost maximal-munch
scanning reproduces `re.search` exactly; the scanners below implement
that. -/

def isQuote (c : Char) : Bool := c = '"' || c = '\''

/-- Match `pat` case-insensitively at the head of `cs`; return the rest. -/
def dropCI : List Char → List Char → Option (List Char)
  | [], cs => some cs
  | _ :: _, [] => none
  | p :: ps, c :: cs => if p.toLower = c.toLower then dropCI ps cs else none

/-- Match a quoted run `["\']([^"\']+)["\']` at the head of `cs`; return the
captured body and the rest after the closing quote. -/
def matchQuoted (cs : List Char) : Option (List Char × List Char) :=
  match cs with
  | q :: rest =>
    if isQuote q then
      let body := rest.takeWhile (fun c => !isQuote c)
      if body.isEmpty then none
      else
        match rest.dropWhile (fun c => !isQuote c) with
        | q2 :: after => if isQuote q2 then some (body, after) else none
        | [] => none
    else none
  | [] => none

/-- Match `var\s+NAME\s*=\s*["\']([^"\']+)["\']` (IGNORECASE) at the head of
`cs`; return the captured value. -/
def matchVarAt (name : List Char) (cs : List Char) : Option (List Char) :=
  match dropCI ['v', 'a', 'r'] cs with
  | none => none
  | some r1 =>
    if (r1.takeWhile pyIsSpace).isEmpty then none
    else
      match dropCI name (r1.dropWhile pyIsSpace) with
      | none => none
      | some r2 =>
        match r2.dropWhile pyIsSpace with
        | '=' :: r3 =>
          match matchQuoted (r3.dropWhile pyIsSpace) with
          | some (body, _) => some body
          | none => none
        | _ => none

/-- `re.search`: try the matcher at each position, leftmost first. -/
def searchPos (f : List Char → Option α) : List Char → Option α
  | [] => none
  | c :: cs =>
    match f (c :: cs) with
    | some r => some r
    | none => searchPos f cs

/-- First match of the `var NAME = "..."` pattern anywhere in the text. -/
def searchVar (name : List Char) (cs : List Char) : Option (List Char) :=
  searchPos (matchVarAt name) cs

/-- Match `\s*\+\s*` at the head of `cs`. -/
def matchPlus (cs : List Char) : Option (List Char) :=
  match cs.dropWhile pyIsSpace with
  | '+' :: r => some (r.dropWhile pyIsSpace)
  | _ => none

/-- Match `["\']@["\']` at the head of `cs`. -/
def matchQuotedAt (cs : List Char) : Option (List Char) :=
  match cs with
  | q1 :: '@' :: q2 :: r => if isQuote q1 && isQuote q2 then some r else none
  | _ => none

/-- Match the alternative construction pattern
`["\']([^"\']+)["\']\s*\+\s*["\']@["\']\s*\+\s*["\']([^"\']+)["\']`
at the head of `cs`. -/
def matchConstructAt (cs : List Char) : Option (List Char × List Char) :=
  match matchQuoted cs with
  | none => none
  | some (body1, r1) =>
    match matchPlus r1 with
    | none => none
    | some r2 =>
      match matchQuotedAt r2 with
      | none => none
      | some r3 =>
        match matchPlus r3 with
        | none => none
        | some r4 =>
          match matchQuoted r4 with
          | none => none
          | some (body2, _) => some (body1, body2)

/-- `extract_email_from_javascript` (`scrape_municipal_staff.py`): if both a
`var wsd = "..."` and a `var xsd = "..."` assignment are found, return
`wsd@xsd`; else if the quoted `"..." + '@' + "..."` construction is found,
return its two parts joined by `@`; else the empty string. -/
def extract_email_from_javascript (html : String) : String :=
  match searchVar ['w', 's', 'd'] html.data, searchVar ['x', 's', 'd'] html.data with
  | some u, some d => String.mk u ++ "@" ++ String.mk d
  | _, _ =>
    match searchPos matchConstructAt html.data with
    | some (u, d) => String.mk u ++ "@" ++ String.mk d
    | none => ""

/-! ## Parsed staff pages and `extract_staff_info`

A `StaffPage` records exactly what BeautifulSoup exposes to
`extract_staff_info`: the stripped text of the `.BioName` element (when
present), the first `div.BioText` block (its `get_text('\n', strip=True)`
string and the `href` values of its descendant anchors that carry an
`href`, in document order), the `href` values of every `href`-carrying
anchor in the whole document in document order, and the raw HTML string. -/

structure BioTextBlock where
  rawText : String
  anchorHrefs : List String
  deriving Repr, DecidableEq

structure StaffPage where
  bioName : Option String
  bioText : Option BioTextBlock
  pageAnchorHrefs : List String
  rawHtml : String
  deriving Repr, DecidableEq

/-- The anchors of the biography block, empty when there is none. -/
def bioAnchors (p : StaffPage) : List String :=
  match p.bioText with
  | some b => b.anchorHrefs
  | none => []

/-- `lines = [line.strip() for line in bio_text.split('\n') if line.strip()]`. -/
def bioLines (raw : String) : List String :=
  ((raw.splitOn "\n").map String.trim).filter (fun l => l ≠ "")

/-- The `for i, line in enumerate(lines)` scan for `Title:` and `Phone:`
prefixes: a `title:` line overwrites the title with the rest of the line; a
`phone:` line whose remainder is empty takes the following line when one
exists, else the (empty) remainder; later matches overwrite earlier ones. -/
def scanTitlePhone : List String → String × String → String × String
  | [], acc => acc
  | l :: rest, (t, ph) =>
    if pyStartsWith (pyLower l) "title:" then
      scanTitlePhone rest ((pyDrop l 6).trim, ph)
    else if pyStartsWith (pyLower l) "phone:" then
      let pt := (pyDrop l 6).trim
      let ph' := if pt = "" then
          match rest with
          | next :: _ => next.trim
          | [] => pt
        else pt
      scanTitlePhone rest (t, ph')
    else scanTitlePhone rest (t, ph)

/-- The `for link in all_email_links` loop: the first page anchor whose href
has the `mailto:` scheme yields the href with the scheme stripped, with a
`break`; no such anchor yields the empty string. -/
def firstMailtoHref : List String → String
  | [] => ""
  | h :: t => if pyStartsWith h "mailto:" then pyDrop h 7 else firstMailtoHref t

structure StaffInfo where
  person : String
  department : String
  title : String
  phone : String
  email : String
  url : String
  deriving Repr, DecidableEq

/-- `extract_staff_info` (`scrape_municipal_staff.py`): person from
`.BioName`; from the first `.BioText` block take the lines, skip a leading
line duplicating the person name, the first remaining line is the
department, scan for `Title:`/`Phone:` prefixes; e-mail from the first
`href`-carrying anchor of the block when its href is a `mailto:` link, else
the first `mailto:` anchor anywhere on the page, else — only when
`'mailto:'` occurs in the lowercased raw HTML — the JavaScript
reconstruction, else empty. -/
def extract_staff_info (p : StaffPage) (url : String) : StaffInfo :=
  let person := p.bioName.getD ""
  let (department, title, phone, email1) :=
    match p.bioText with
    | none => ("", "", "", "")
    | some b =>
      let lines := bioLines b.rawText
      let startIdx : Nat :=
        if lines ≠ [] && person ≠ "" && pyLower (lines.headD "") = pyLower person
        then 1 else 0
      let department := if startIdx < lines.length then lines.getD startIdx "" else ""
      let (title, phone) := scanTitlePhone lines ("", "")
      let email1 :=
        match b.anchorHrefs with
        | h :: _ => if pyStartsWith h "mailto:" then pyDrop h 7 else ""
        | [] => ""
      (department, title, phone, email1)
  let email2 := if email1 = "" then firstMailtoHref p.pageAnchorHrefs else email1
  let email3 :=
    if email2 = "" && strContainsSub (pyLower p.rawHtml) "mailto:" then
      extract_email_from_javascript p.rawHtml
    else email2
  { person := person, department := department, title := title,
    phone := phone, email := email3, url := url }

/-! ## The e-mail fallback chain of claim C9, as the claim words it, and as
the code forces it to be amended -/

/-- The e-mail fallback chain exactly as the specification words it: the
first `mailto:`-scheme anchor inside the biography block when one exists
anywhere in the block, else the first `mailto:` anchor anywhere on the
page, else the `wsd`/`xsd` script-variable reconstruction, else empty. -/
def specStaffEmail (p : StaffPage) : String :=
  match (bioAnchors p).find? (fun h => pyStartsWith h "mailto:") with
  | some h => pyDrop h 7
  | none =>
    match p.pageAnchorHrefs.find? (fun h => pyStartsWith h "mailto:") with
    | some h => pyDrop h 7
    | none =>
      match searchVar ['w', 's', 'd'] p.rawHtml.data,
            searchVar ['x', 's', 'd'] p.rawHtml.data with
      | some u, some d => String.mk u ++ "@" ++ String.mk d
      | _, _ => ""

/-- The fallback chain as the code actually behaves, stated in the
specification's vocabulary: only the first `href`-carrying anchor of the
biography block is consulted, an empty address after the scheme falls
through, the page-wide step takes the first `mailto:` anchor, and the
script reconstruction runs only when `'mailto:'` occurs in the lowercased
raw HTML. -/
def amendedStaffEmail (p : StaffPage) : String :=
  let step3 :=
    if strContainsSub (pyLower p.rawHtml) "mailto:" then
      extract_email_from_javascript p.rawHtml
    else ""
  let step2 :=
    match p.pageAnchorHrefs.find? (fun h => pyStartsWith h "mailto:") with
    | some h => if h = "mailto:" then step3 else pyDrop h 7
    | none => step3
  match (bioAnchors p).head? with
  | some h => if pyStartsWith h "mailto:" && h ≠ "mailto:" then pyDrop h 7 else step2
  | none => step2

/-! ## `civicplus_scraper.py`: parsing and per-page scraping

`parse_staff_page` differs from `extract_staff_info`: no duplicate-name
line skip (the first line is always the department), no next-line rule for
`Phone:`, and the e-mail loop walks every anchor of the biography block
(not just the first) — with no page-wide or JavaScript fallback. -/

/-- The `for line in bio_text.split('\n')` scan of `parse_staff_page`:
each line is stripped, `title:`/`phone:` prefixed lines overwrite the
respective fields with the rest of the line. -/
def cpScanTitlePhone : List String → String × String → String × String
  | [], acc => acc
  | l0 :: rest, (t, ph) =>
    let l := l0.trim
    if pyStartsWith (pyLower l) "title:" then
      cpScanTitlePhone rest ((pyDrop l 6).trim, ph)
    else if pyStartsWith (pyLower l) "phone:" then
      cpScanTitlePhone rest (t, (pyDrop l 6).trim)
    else cpScanTitlePhone rest (t, ph)

/-- `parse_staff_page` (`civicplus_scraper.py`). -/
def cp_parse_staff_page (p : StaffPage) (url : String) : StaffInfo :=
  let person := p.bioName.getD ""
  let (department, title, phone, email) :=
    match p.bioText with
    | none => ("", "", "", "")
    | some b =>
      let lines := bioLines b.rawText
      let department := lines.headD ""
      let (title, phone) := cpScanTitlePhone (b.rawText.splitOn "\n") ("", "")
      let email := firstMailtoHref b.anchorHrefs
      (department, title, phone, email)
  { person := person, department := department, title := title,
    phone := phone, email := email, url := url }

/-- A parsed department (DID) page: the stripped text of the first `h1`,
of the `p:nth-child(10)` selector's first hit, and of the `.viewMap + p`
selector's first hit, each absent when the selector matches nothing. -/
structure DeptPage where
  h1Text : Option String
  tenthParagraph : Option String
  afterViewMap : Option String
  deriving Repr, DecidableEq

structure DeptInfo where
  department : String
  phone : String
  address : String
  deriving Repr, DecidableEq

/-- `parse_department_page` (`civicplus_scraper.py`). -/
def cp_parse_department_page (d : DeptPage) : DeptInfo :=
  { department := d.h1Text.getD ""
    phone := d.tenthParagraph.getD ""
    address := d.afterViewMap.getD "" }

/-- One of the nine-column output rows of either scraper. -/
structure OutRecord where
  kind : String
  organization : String
  person : String
  department : String
  title : String
  phone : String
  email : String
  address : String
  note : String
  deriving Repr, DecidableEq

/-- `scrape_staff` (`civicplus_scraper.py`): `fetch_with_retry` returning
`None`, or a status other than 200, yields no record; otherwise the parsed
page is returned as a record unconditionally (parsing only fails on an
exception, which the page model excludes). -/
def cp_scrape_staff (response : Option (Nat × StaffPage)) (organization url : String) :
    Option OutRecord :=
  match response with
  | none => none
  | some (status, page) =>
    if status ≠ 200 then none
    else
      let info := cp_parse_staff_page page url
      some { kind := "Municipal Staff", organization := organization,
             person := info.person, department := info.department,
             title := info.title, phone := info.phone, email := info.email,
             address := "", note := url }

/-- `scrape_department` (`civicplus_scraper.py`). -/
def cp_scrape_department (response : Option (Nat × DeptPage)) (organization url : String) :
    Option OutRecord :=
  match response with
  | none => none
  | some (status, page) =>
    if status ≠ 200 then none
    else
      let info := cp_parse_department_page page
      some { kind := "Municipal Department", organization := organization,
             person := "", department := info.department, title := "",
             phone := info.phone, email := "", address := info.address,
             note := url }

/-! ## Durable side-logs and the batched CSV writer
(`scrape_municipal_staff.py`)

A file opened for writing is modelled as the list of rows handed to its
`csv.writer` together with a watermark counting how many of those rows had
been written when `flush()` last ran. -/

structure SideLog where
  rows : List (List String)
  flushed : Nat
  deriving Repr, DecidableEq

/-- `log_successful_eid`: append one row to the success log and flush. -/
def log_successful_eid (lg : SideLog) (municipality state url person department : String) :
    SideLog :=
  { rows := lg.rows ++ [[municipality, state, url, person, department]]
    flushed := lg.rows.length + 1 }

/-- `log_404_eid`: append one row to the not-found log and flush.  (The
function exists in the source; its only call site is commented out.) -/
def log_404_eid (lg : SideLog) (municipality state url : String) : SideLog :=
  { rows := lg.rows ++ [[municipality, state, url]]
    flushed := lg.rows.length + 1 }

/-- The nine-column row `write_batch_to_csv` writes for one record. -/
def msToOutRow (r : OutRecord) : List String :=
  ["Municipal Staff", r.organization, r.person, r.department, r.title,
   r.phone, r.email, "", r.note]

/-- State of the main output CSV plus the function attributes
(`batch_count`, `last_flush_time`) that `write_batch_to_csv` keeps on
itself.  `lastFlush` is `none` before the first call (the `hasattr`
initialisation sets it to the current time then). -/
structure CsvWriter where
  rows : List (List String)
  flushed : Nat
  batchCount : Nat
  lastFlush : Option Nat
  deriving Repr, DecidableEq

/-- `write_batch_to_csv` at wall-clock time `now` (seconds): an empty batch
writes nothing; otherwise all rows are handed to the writer, the batch
counter is bumped, and the handle is flushed only when the counter reaches
a multiple of 10 or more than 60 seconds passed since the last flush.
(The `last_auto_save` bookkeeping feeding `check_auto_save` is not part of
any claim and is omitted.) -/
def write_batch_to_csv (w : CsvWriter) (batch : List OutRecord) (now : Nat) : CsvWriter :=
  if batch.isEmpty then w
  else
    let rows' := w.rows ++ batch.map msToOutRow
    let lf := w.lastFlush.getD now
    let bc := w.batchCount + 1
    if bc % 10 = 0 || now - lf > 60 then
      { rows := rows', flushed := rows'.length, batchCount := bc, lastFlush := some now }
    else
      { rows := rows', flushed := w.flushed, batchCount := bc, lastFlush := some lf }

/-! ## `process_eid_batch` (`scrape_municipal_staff.py`)

Phase 1 classifies each EID's HEAD-probe outcome (modelled as
`Option Nat`, the status or `None` on failure) and keeps the 200s; the
`log_404_eid` call in the 404 arm is commented out in the source, so the
not-found log is untouched.  Phase 2 extracts each surviving EID's fetched
page and emits a record — appending to the success side-log — exactly when
the extracted person name is non-empty.  (The `results_buffer` /
`BATCH_SIZE` flushing that phase 2 also performs is the `CsvWriter` model
above and is claimed separately.) -/

/-- Phase 1 of `process_eid_batch`: surviving EIDs in order, plus the
not-found side-log state. -/
def phase1Classify (probes : Nat → Option Nat) : List Nat → SideLog → List Nat × SideLog
  | [], nf => ([], nf)
  | e :: rest, nf =>
    match probes e with
    | none => phase1Classify probes rest nf
    | some st =>
      if st = 404 then
        -- source line 370: `# log_404_eid(municipality, state, url)` (disabled)
        phase1Classify probes rest nf
      else if st = 200 then
        let p := phase1Classify probes rest nf
        (e :: p.1, p.2)
      else
        -- non-200, non-404: logged as a warning, not kept
        phase1Classify probes rest nf

/-- The phase-2 emission test: a record is built exactly when
`staff_info and staff_info['person']` is truthy, i.e. the person name is
non-empty. -/
def phase2Emit (organization : String) (info : StaffInfo) : Option OutRecord :=
  if info.person ≠ "" then
    some { kind := "Municipal Staff", organization := organization,
           person := info.person, department := info.department,
           title := info.title, phone := info.phone, email := info.email,
           address := "", note := info.url }
  else none

/-- Phase 2 of `process_eid_batch`: for each surviving EID, a failed fetch
(`None`) is skipped; otherwise the page is extracted and, when the person
name is non-empty, the success log gains a flushed entry and the record is
appended. -/
def phase2Process (contents : Nat → Option StaffPage) (eidBase municipality state : String) :
    List Nat → List OutRecord × SideLog → List OutRecord × SideLog
  | [], acc => acc
  | e :: rest, (recs, slog) =>
    match contents e with
    | none => phase2Process contents eidBase municipality state rest (recs, slog)
    | some page =>
      let url := eidBase ++ Nat.repr e
      let info := extract_staff_info page url
      match phase2Emit (municipality ++ ", " ++ state) info with
      | some r =>
        phase2Process contents eidBase municipality state rest
          (recs ++ [r], log_successful_eid slog municipality state url info.person info.department)
      | none => phase2Process contents eidBase municipality state rest (recs, slog)

structure BatchResult where
  records : List OutRecord
  successLog : SideLog
  notFoundLog : SideLog
  deriving Repr, DecidableEq

/-- `process_eid_batch`: phase 1 then phase 2. -/
def process_eid_batch (probes : Nat → Option Nat) (contents : Nat → Option StaffPage)
    (eidBase municipality state : String) (eids : List Nat)
    (recs : List OutRecord) (slog nflog : SideLog) : BatchResult :=
  let p1 := phase1Classify probes eids nflog
  let p2 := phase2Process contents eidBase municipality state p1.1 (recs, slog)
  { records := p2.1, successLog := p2.2, notFoundLog := p1.2 }

/-! ## `write_results_batch` and the civicplus output file (claim C4)

The output file is the list of rows present in it.  `write_results_batch`
opens the file in `'w'` mode (truncating) when asked to write the header
and in `'a'` mode otherwise; but its whole body is guarded by
`if results:`, so a call with an empty batch writes nothing at all — in
particular `main`'s initialisation call
`write_results_batch([], OUTPUT_FILE, write_header=True)` truncates the
file and writes no header. -/

def cpHeaderRow : List String :=
  ["Type", "Organization", "Person", "Department", "Title", "Phone",
   "Email", "Address", "Note"]

def cpToRow (r : OutRecord) : List String :=
  [r.kind, r.organization, r.person, r.department, r.title, r.phone,
   r.email, r.address, r.note]

/-- `write_results_batch` (`civicplus_scraper.py`). -/
def write_results_batch (results : List OutRecord) (file : List (List String))
    (writeHeader : Bool) : List (List String) :=
  let base := if writeHeader then [] else file
  if results.isEmpty then base
  else base ++ (if writeHeader then [cpHeaderRow] else []) ++ results.map cpToRow

/-- The civicplus `main` run restricted to its writes: the initialisation
call with an empty batch and `write_header=True`, then one append call per
accumulated buffer batch. -/
def cpMainFile (batches : List (List OutRecord)) : List (List String) :=
  batches.foldl (fun f b => write_results_batch b f false) (write_results_batch [] [] true)

/-- The municipal-staff `main` by contrast writes its header row directly
at file-creation time, before any batch: `output_writer.writerow([...])`
followed by a flush, after which every batch only appends data rows. -/
def msHeaderRow : List String :=
  ["Type", "Organization", "Person", "Department", "Title", "Phone",
   "Email", "Address", "Note"]

/-- The municipal-staff main output file after the header write and a
sequence of (batch, time) writer calls. -/
def msMainFile (calls : List (List OutRecord × Nat)) : CsvWriter :=
  calls.foldl (fun w c => write_batch_to_csv w c.1 c.2)
    { rows := [msHeaderRow], flushed := 1, batchCount := 0, lastFlush := none }

/-! ## The fetch engines (claims C5 and C6)

A network trace assigns each attempt number its outcome: a response with a
status and a body, or a network/timeout error (all three `except` arms of
the source collapse to one retryable case). -/

inductive ReqResult where
  | resp (status : Nat) (body : String)
  | exc
  deriving Repr, DecidableEq

/-- The attempt loop of `fetch_with_retry` (`civicplus_scraper.py`):
a 404 response returns `None` at once (no body, no retry, no error
count); any other response returns `(status, body)` at once; an exception
moves to the next attempt; exhausting all attempts increments
`total_errors` and returns `None`. -/
def fwrGo (trace : Nat → ReqResult) (attempt : Nat) :
    Nat → Nat → Option (Nat × String) × Nat
  | 0, errors => (none, errors + 1)
  | remaining + 1, errors =>
    match trace attempt with
    | .resp status body =>
      if status = 404 then (none, errors) else (some (status, body), errors)
    | .exc => fwrGo trace (attempt + 1) remaining errors

/-- `fetch_with_retry`, with the `total_errors` counter threaded through. -/
def fetch_with_retry (trace : Nat → ReqResult) (errors : Nat) :
    Option (Nat × String) × Nat :=
  fwrGo trace 0 REQUEST_RETRY_ATTEMPTS errors

/-- The attempt loop of `check_url_exists` (`scrape_municipal_staff.py`):
any response returns its status at once; an exception retries; exhaustion
returns `None`. -/
def cueGo (trace : Nat → ReqResult) (attempt : Nat) : Nat → Option Nat
  | 0 => none
  | remaining + 1 =>
    match trace attempt with
    | .resp status _ => some status
    | .exc => cueGo trace (attempt + 1) remaining

/-- `check_url_exists`. -/
def check_url_exists (trace : Nat → ReqResult) : Option Nat :=
  cueGo trace 0 MAX_RETRIES

/-- The attempt loop of `fetch_content` (`scrape_municipal_staff.py`): a
200 response returns its body; any other response returns `None` at once;
an exception retries; exhaustion returns `None`. -/
def fcGo (trace : Nat → ReqResult) (attempt : Nat) : Nat → Option String
  | 0 => none
  | remaining + 1 =>
    match trace attempt with
    | .resp status body => if status = 200 then some body else none
    | .exc => fcGo trace (attempt + 1) remaining

/-- `fetch_content`. -/
def fetch_content (trace : Nat → ReqResult) : Option String :=
  fcGo trace 0 MAX_RETRIES

/-- The sleeps `fetch_with_retry` performs between consecutive failed
attempts: `await asyncio.sleep(2 ** attempt)` for every attempt below
`REQUEST_RETRY_ATTEMPTS - 1`. -/
def cp_retry_sleeps : List Nat :=
  (List.range (REQUEST_RETRY_ATTEMPTS - 1)).map (fun k => 2 ^ k)

/-- The sleeps `check_url_exists` and `fetch_content` perform between
consecutive failed attempts: `await asyncio.sleep(RETRY_DELAY)` for every
attempt below `MAX_RETRIES - 1`. -/
def ms_retry_sleeps : List Nat :=
  (List.range (MAX_RETRIES - 1)).map (fun _ => RETRY_DELAY)

/-! ## `SmartRateLimiter` (`old stuff/government_website_finder.py`)

`min_concurrent = 3`, `max_concurrent = 50`; the speedup factor is `1.2`
and the backoff factor `0.7`.  The source computes
`int(self.concurrent_limit * 1.2)` and `int(self.concurrent_limit * 0.7)`
in IEEE-754 doubles; for every integer limit in the reachable range
`[3, 50]` those equal `⌊6n/5⌋` and `⌊7n/10⌋` respectively (when `6n/5`
resp. `7n/10` is not an integer the float product lies strictly between
the same two integers; when it is an integer `m ≤ 60`, `n * fl(factor)`
is within half an ulp of `m` and rounds to exactly `m`), which is how the
truncations are embedded here. -/

def min_concurrent : Nat := 3
def max_concurrent : Nat := 50

/-- `int(n * 1.2)` for the reachable limits. -/
def intSpeedup (n : Nat) : Nat := 6 * n / 5

/-- `int(n * 0.7)` for the reachable limits. -/
def intBackoff (n : Nat) : Nat := 7 * n / 10

structure SmartRateLimiter where
  concurrent_limit : Nat
  consecutive_successes : Nat
  consecutive_failures : Nat
  total_requests : Nat
  rate_limited_requests : Nat
  deriving Repr, DecidableEq

/-- `can_increase_concurrency`. -/
def can_increase_concurrency (s : SmartRateLimiter) : Bool :=
  5 ≤ s.consecutive_successes && s.concurrent_limit < max_concurrent

/-- `should_decrease_concurrency`. -/
def should_decrease_concurrency (s : SmartRateLimiter) : Bool :=
  2 ≤ s.consecutive_failures

/-- The counter updates `record_success_batch` performs before its
conditional adjustment. -/
def successAccum (s : SmartRateLimiter) (batchSize : Nat) : SmartRateLimiter :=
  { s with consecutive_successes := s.consecutive_successes + batchSize
           consecutive_failures := 0
           total_requests := s.total_requests + batchSize }

/-- `record_success_batch`. -/
def record_success_batch (s : SmartRateLimiter) (batchSize : Nat) : SmartRateLimiter :=
  if can_increase_concurrency (successAccum s batchSize) then
    { successAccum s batchSize with
      concurrent_limit := min max_concurrent (intSpeedup (successAccum s batchSize).concurrent_limit)
      consecutive_successes := 0 }
  else successAccum s batchSize

/-- The counter updates `record_rate_limit_batch` performs before its
conditional adjustment. -/
def failureAccum (s : SmartRateLimiter) (failedCount : Nat) : SmartRateLimiter :=
  { s with consecutive_failures := s.consecutive_failures + failedCount
           consecutive_successes := 0
           total_requests := s.total_requests + failedCount
           rate_limited_requests := s.rate_limited_requests + failedCount }

/-- `record_rate_limit_batch`. -/
def record_rate_limit_batch (s : SmartRateLimiter) (failedCount : Nat) : SmartRateLimiter :=
  if should_decrease_concurrency (failureAccum s failedCount) then
    { failureAccum s failedCount with
      concurrent_limit := max min_concurrent (intBackoff (failureAccum s failedCount).concurrent_limit)
      consecutive_failures := 0 }
  else failureAccum s failedCount

/-- One recorded batch: `true` for a success batch of the given size,
`false` for a rate-limited batch of the given failure count. -/
def applyRateOp (s : SmartRateLimiter) (op : Bool × Nat) : SmartRateLimiter :=
  if op.1 then record_success_batch s op.2 else record_rate_limit_batch s op.2

/-! ## URL construction (claim C8)

`urlparse`/`urljoin` restricted to the shapes the scrapers produce: both
join a root-relative reference (starting with `/`) onto a base, which
keeps only the base's scheme and network location.  The network location
(`netloc`) runs from after `scheme://` up to the first `/`, `?` or `#`;
the path runs from there up to the first `?` or `#`. -/

/-- Split `scheme://rest` at the first `://`. -/
def splitScheme : List Char → Option (List Char × List Char)
  | [] => none
  | c :: rest =>
    if c = ':' && startsWithL ['/', '/'] rest then some ([], rest.drop 2)
    else
      match splitScheme rest with
      | some (sch, r) => some (c :: sch, r)
      | none => none

def isNetlocChar (c : Char) : Bool := c ≠ '/' && c ≠ '?' && c ≠ '#'

def isPathChar (c : Char) : Bool := c ≠ '?' && c ≠ '#'

/-- `str.rstrip('/')`. -/
def rstripSlashL (cs : List Char) : List Char :=
  (cs.reverse.dropWhile (fun c => c = '/')).reverse

/-- `urljoin(base, ref)` for a root-relative `ref`: the scheme and netloc
of `base` followed by `ref`; with no scheme in `base`, just `ref`. -/
def pyUrljoinRoot (base ref : List Char) : List Char :=
  match splitScheme base with
  | some (sch, rest) => sch ++ [':', '/', '/'] ++ rest.takeWhile isNetlocChar ++ ref
  | none => ref

/-- `scrape_municipality` (`civicplus_scraper.py`):
`urljoin(website.rstrip('/'), f"/Directory.aspx?DID={did}")`. -/
def cpDidUrl (website : String) (did : Nat) : String :=
  ⟨pyUrljoinRoot (rstripSlashL website.data)
    ("/Directory.aspx?DID=".data ++ (Nat.repr did).data)⟩

/-- `scrape_municipality` (`civicplus_scraper.py`):
`urljoin(website.rstrip('/'), f"/directory.aspx?EID={eid}")`. -/
def cpEidUrl (website : String) (eid : Nat) : String :=
  ⟨pyUrljoinRoot (rstripSlashL website.data)
    ("/directory.aspx?EID=".data ++ (Nat.repr eid).data)⟩

/-- The scheme-defaulting step of `process_municipality`
(`scrape_municipal_staff.py`): prefix `https://` when the website starts
with neither `http://` nor `https://`. -/
def msSchemePrefixed (website : String) : String :=
  if startsWithL "http://".data website.data || startsWithL "https://".data website.data
  then website else "https://" ++ website

/-- The website normalisation of `process_municipality`
(`scrape_municipal_staff.py`): after scheme defaulting, when the netloc
does not start with `www.`, rebuild the URL as `scheme://www.netloc +
path` (dropping any query or fragment). -/
def msNormalizeWebsite (website : String) : String :=
  match splitScheme (msSchemePrefixed website).data with
  | some (sch, rest) =>
    if startsWithL "www.".data (rest.takeWhile isNetlocChar)
    then msSchemePrefixed website
    else ⟨sch ++ [':', '/', '/'] ++ "www.".data ++ rest.takeWhile isNetlocChar
          ++ (rest.drop (rest.takeWhile isNetlocChar).length).takeWhile isPathChar⟩
  | none => msSchemePrefixed website

/-- `process_municipality` (`scrape_municipal_staff.py`): the EID base is
`urljoin(website.rstrip('/'), '/directory.aspx?EID=')` after
normalisation, and each candidate URL is the base with the decimal EID
appended (`f"{eid_base}{eid}"`). -/
def msEidUrl (website : String) (eid : Nat) : String :=
  String.mk (pyUrljoinRoot (rstripSlashL (msNormalizeWebsite website).data)
    "/directory.aspx?EID=".data) ++ Nat.repr eid

/-- `chainDoubling l`: each element of `l` is twice its predecessor. -/
def chainDoubling : List Nat → Bool
  | a :: b :: r => (b = 2 * a) && chainDoubling (b :: r)
  | _ => true

/-- `chainMono l`: the elements of `l` are non-decreasing. -/
def chainMono : List Nat → Bool
  | a :: b :: r => (a ≤ b) && chainMono (b :: r)
  | _ => true

/-! ## Concrete instances used by the counterexamples and witnesses -/

/-- A representative staff record. -/
def demoRecord : OutRecord :=
  { kind := "Municipal Staff", organization := "Springfield, Ohio",
    person := "Jane Doe", department := "Parks", title := "", phone := "",
    email := "", address := "",
    note := "https://www.springfieldoh.example/directory.aspx?EID=42" }

/-- A 200 staff page whose template carries no biography markers at all
(so every extracted field is empty). -/
def blankStaffPage : StaffPage :=
  { bioName := none, bioText := none, pageAnchorHrefs := [], rawHtml := "" }

/-- A staff page whose biography block's first `href` anchor is a plain
link, with a `mailto:` anchor later in the block and another `mailto:`
anchor earlier in the document. -/
def mixedAnchorPage : StaffPage :=
  { bioName := some "Jane Doe"
    bioText := some
      { rawText := "Jane Doe\nParks Department\nTitle: Director"
        anchorHrefs := ["/map", "mailto:a@b.org"] }
    pageAnchorHrefs := ["mailto:c@d.org", "/map", "mailto:a@b.org"]
    rawHtml := "<a href=\"mailto:c@d.org\">c</a><div class=\"BioText\"><a href=\"/map\">m</a><a href=\"mailto:a@b.org\">a</a></div>" }

/-- A staff page with no anchors and no `mailto:` text, whose script block
nevertheless assigns `wsd`/`xsd` variables composing a valid address. -/
def scriptOnlyPage : StaffPage :=
  { bioName := some "Bob", bioText := none, pageAnchorHrefs := []
    rawHtml := "<script>var wsd = \"info\"; var xsd = \"town.gov\";</script>" }

end NWACC

namespace NWACC

/-! # Claim C4 — header row of the output store -/

/-- C4: the claim says the output store's header row is written exactly
once and before any data row, for every sequence of batch writes including
an empty first batch.  The civicplus `main` initialises its output file
with exactly such an empty first batch
(`write_results_batch([], OUTPUT_FILE, write_header=True)`), and because
`write_results_batch` guards all writing behind `if results:`, that call
writes no header at all: after a subsequent one-record batch the file
holds one data row and zero header rows, contradicting both the claim and
the code's own `# Initialize output file with header` comment.  The
municipal-staff `main`, by contrast, writes its header directly and does
satisfy the claim. -/
theorem civicplus_header_never_written :
    cpMainFile [[demoRecord]] = [cpToRow demoRecord]
    ∧ cpHeaderRow ∉ cpMainFile [[demoRecord]]
    ∧ (msMainFile [([demoRecord], 0)]).rows.headD [] = msHeaderRow
    ∧ ((msMainFile [([demoRecord], 0)]).rows.count msHeaderRow = 1) := by
  refine ⟨rfl, by decide, rfl, by decide⟩

/-! # Claim C5 — fetch outcome classification -/

/-- C5 counterexample: the claim says any non-2xx status other than 404 is
retried up to the retry bound.  On a trace whose first attempt answers
HTTP 500 and whose second would answer HTTP 200, `fetch_with_retry`
returns `(500, body)` from the first attempt: the 500 is handed back
immediately (body included) and never retried — a retry would have
produced the 200. -/
theorem non404_error_status_not_retried :
    fetch_with_retry
      (fun i => if i = 0 then .resp 500 "server error" else .resp 200 "ok") 0
      = (some (500, "server error"), 0) := rfl

/-- The attempt loop of `fetch_with_retry` on a trace whose first `i`
attempts raise and whose attempt `i` (within the bound) gets a response:
the response decides the outcome at once — `None` on 404, the status and
body otherwise — regardless of every later attempt, and the error count
is untouched. -/
theorem fwrGo_first_resp (trace : Nat → ReqResult) (s : Nat) (b : String) :
    ∀ (remaining i attempt errors : Nat), i < remaining →
      (∀ j, j < i → trace (attempt + j) = ReqResult.exc) →
      trace (attempt + i) = ReqResult.resp s b →
      fwrGo trace attempt remaining errors
        = if s = 404 then (none, errors) else (some (s, b), errors) := by
  intro remaining
  induction remaining with
  | zero => intro i attempt errors hi; omega
  | succ r ih =>
    intro i attempt errors hi hexc hresp
    cases i with
    | zero =>
      rw [Nat.add_zero] at hresp
      simp only [fwrGo, hresp]
    | succ i =>
      have h0 : trace attempt = ReqResult.exc := by
        have := hexc 0 (Nat.succ_pos i)
        rwa [Nat.add_zero] at this
      simp only [fwrGo, h0]
      apply ih i (attempt + 1) errors (by omega)
      · intro j hj
        have := hexc (j + 1) (by omega)
        rwa [show attempt + (j + 1) = attempt + 1 + j from by omega] at this
      · rwa [show attempt + (i + 1) = attempt + 1 + i from by omega] at hresp

/-- The attempt loop of `fetch_with_retry` on a trace that raises at every
attempt of the window: exhaustion returns `None` and increments the error
count once. -/
theorem fwrGo_all_exc (trace : Nat → ReqResult) :
    ∀ (remaining attempt errors : Nat),
      (∀ j, j < remaining → trace (attempt + j) = ReqResult.exc) →
      fwrGo trace attempt remaining errors = (none, errors + 1) := by
  intro remaining
  induction remaining with
  | zero => intro attempt errors _; rfl
  | succ r ih =>
    intro attempt errors hexc
    have h0 : trace attempt = ReqResult.exc := by
      have := hexc 0 (by omega)
      rwa [Nat.add_zero] at this
    simp only [fwrGo, h0]
    apply ih (attempt + 1) errors
    intro j hj
    have := hexc (j + 1) (by omega)
    rwa [show attempt + (j + 1) = attempt + 1 + j from by omega] at this

/-- The attempt loop of `check_url_exists`: the first response within the
window is handed back as a bare status at once, whatever it is. -/
theorem cueGo_first_resp (trace : Nat → ReqResult) (s : Nat) (b : String) :
    ∀ (remaining i attempt : Nat), i < remaining →
      (∀ j, j < i → trace (attempt + j) = ReqResult.exc) →
      trace (attempt + i) = ReqResult.resp s b →
      cueGo trace attempt remaining = some s := by
  intro remaining
  induction remaining with
  | zero => intro i attempt hi; omega
  | succ r ih =>
    intro i attempt hi hexc hresp
    cases i with
    | zero =>
      rw [Nat.add_zero] at hresp
      simp only [cueGo, hresp]
    | succ i =>
      have h0 : trace attempt = ReqResult.exc := by
        have := hexc 0 (Nat.succ_pos i)
        rwa [Nat.add_zero] at this
      simp only [cueGo, h0]
      apply ih i (attempt + 1) (by omega)
      · intro j hj
        have := hexc (j + 1) (by omega)
        rwa [show attempt + (j + 1) = attempt + 1 + j from by omega] at this
      · rwa [show attempt + (i + 1) = attempt + 1 + i from by omega] at hresp

/-- The attempt loop of `check_url_exists` on an all-raising window:
exhaustion returns `None`. -/
theorem cueGo_all_exc (trace : Nat → ReqResult) :
    ∀ (remaining attempt : Nat),
      (∀ j, j < remaining → trace (attempt + j) = ReqResult.exc) →
      cueGo trace attempt remaining = none := by
  intro remaining
  induction remaining with
  | zero => intro attempt _; rfl
  | succ r ih =>
    intro attempt hexc
    have h0 : trace attempt = ReqResult.exc := by
      have := hexc 0 (by omega)
      rwa [Nat.add_zero] at this
    simp only [cueGo, h0]
    apply ih (attempt + 1)
    intro j hj
    have := hexc (j + 1) (by omega)
    rwa [show attempt + (j + 1) = attempt + 1 + j from by omega] at this

/-- The attempt loop of `fetch_content`: the first response within the
window decides the outcome at once — the body on 200, `None` on any other
status. -/
theorem fcGo_first_resp (trace : Nat → ReqResult) (s : Nat) (b : String) :
    ∀ (remaining i attempt : Nat), i < remaining →
      (∀ j, j < i → trace (attempt + j) = ReqResult.exc) →
      trace (attempt + i) = ReqResult.resp s b →
      fcGo trace attempt remaining = if s = 200 then some b else none := by
  intro remaining
  induction remaining with
  | zero => intro i attempt hi; omega
  | succ r ih =>
    intro i attempt hi hexc hresp
    cases i with
    | zero =>
      rw [Nat.add_zero] at hresp
      simp only [fcGo, hresp]
    | succ i =>
      have h0 : trace attempt = ReqResult.exc := by
        have := hexc 0 (Nat.succ_pos i)
        rwa [Nat.add_zero] at this
      simp only [fcGo, h0]
      apply ih i (attempt + 1) (by omega)
      · intro j hj
        have := hexc (j + 1) (by omega)
        rwa [show attempt + (j + 1) = attempt + 1 + j from by omega] at this
      · rwa [show attempt + (i + 1) = attempt + 1 + i from by omega] at hresp

/-- The attempt loop of `fetch_content` on an all-raising window:
exhaustion returns `None`. -/
theorem fcGo_all_exc (trace : Nat → ReqResult) :
    ∀ (remaining attempt : Nat),
      (∀ j, j < remaining → trace (attempt + j) = ReqResult.exc) →
      fcGo trace attempt remaining = none := by
  intro remaining
  induction remaining with
  | zero => intro attempt _; rfl
  | succ r ih =>
    intro attempt hexc
    have h0 : trace attempt = ReqResult.exc := by
      have := hexc 0 (by omega)
      rwa [Nat.add_zero] at this
    simp only [fcGo, h0]
    apply ih (attempt + 1)
    intro j hj
    have := hexc (j + 1) (by omega)
    rwa [show attempt + (j + 1) = attempt + 1 + j from by omega] at this

/-- C5 amended: over every trace, every attempt position within the retry
bound, every status and every body — HTTP 404 is terminal, never retried
and returns no body (and `check_url_exists` hands any first status, 404
included, back bare); every other received HTTP response, 2xx or not, is
also terminal: `fetch_with_retry` returns it with its body at once and
`fetch_content` returns `None` at once for any non-200.  Only
network/timeout errors are retried, up to the configured attempt bound;
exhausting all attempts yields a failure (`None`) that increments
civicplus's `total_errors` count (the municipal-staff fetchers keep no
such count) without aborting the run. -/
theorem fetch_classification_amended :
    (∀ (trace : Nat → ReqResult) (i : Nat) (b : String) (errors : Nat),
      i < REQUEST_RETRY_ATTEMPTS → (∀ j, j < i → trace j = ReqResult.exc) →
      trace i = ReqResult.resp 404 b →
      fetch_with_retry trace errors = (none, errors))
    ∧ (∀ (trace : Nat → ReqResult) (i s : Nat) (b : String) (errors : Nat),
      i < REQUEST_RETRY_ATTEMPTS → (∀ j, j < i → trace j = ReqResult.exc) →
      trace i = ReqResult.resp s b → s ≠ 404 →
      fetch_with_retry trace errors = (some (s, b), errors))
    ∧ (∀ (trace : Nat → ReqResult) (errors : Nat),
      (∀ j, j < REQUEST_RETRY_ATTEMPTS → trace j = ReqResult.exc) →
      fetch_with_retry trace errors = (none, errors + 1))
    ∧ (∀ (trace : Nat → ReqResult) (i s : Nat) (b : String),
      i < MAX_RETRIES → (∀ j, j < i → trace j = ReqResult.exc) →
      trace i = ReqResult.resp s b →
      check_url_exists trace = some s)
    ∧ (∀ trace : Nat → ReqResult,
      (∀ j, j < MAX_RETRIES → trace j = ReqResult.exc) →
      check_url_exists trace = none)
    ∧ (∀ (trace : Nat → ReqResult) (i : Nat) (b : String),
      i < MAX_RETRIES → (∀ j, j < i → trace j = ReqResult.exc) →
      trace i = ReqResult.resp 200 b →
      fetch_content trace = some b)
    ∧ (∀ (trace : Nat → ReqResult) (i s : Nat) (b : String),
      i < MAX_RETRIES → (∀ j, j < i → trace j = ReqResult.exc) →
      trace i = ReqResult.resp s b → s ≠ 200 →
      fetch_content trace = none)
    ∧ (∀ trace : Nat → ReqResult,
      (∀ j, j < MAX_RETRIES → trace j = ReqResult.exc) →
      fetch_content trace = none) := by
  refine ⟨?_, ?_, ?_, ?_, ?_, ?_, ?_, ?_⟩
  · intro trace i b errors hi hexc hresp
    have h := fwrGo_first_resp trace 404 b REQUEST_RETRY_ATTEMPTS i 0 errors hi
      (by intro j hj; simpa using hexc j hj) (by simpa using hresp)
    simpa [fetch_with_retry] using h
  · intro trace i s b errors hi hexc hresp hs
    have h := fwrGo_first_resp trace s b REQUEST_RETRY_ATTEMPTS i 0 errors hi
      (by intro j hj; simpa using hexc j hj) (by simpa using hresp)
    rw [if_neg hs] at h
    simpa [fetch_with_retry] using h
  · intro trace errors hexc
    have h := fwrGo_all_exc trace REQUEST_RETRY_ATTEMPTS 0 errors
      (by intro j hj; simpa using hexc j hj)
    simpa [fetch_with_retry] using h
  · intro trace i s b hi hexc hresp
    have h := cueGo_first_resp trace s b MAX_RETRIES i 0 hi
      (by intro j hj; simpa using hexc j hj) (by simpa using hresp)
    simpa [check_url_exists] using h
  · intro trace hexc
    have h := cueGo_all_exc trace MAX_RETRIES 0
      (by intro j hj; simpa using hexc j hj)
    simpa [check_url_exists] using h
  · intro trace i b hi hexc hresp
    have h := fcGo_first_resp trace 200 b MAX_RETRIES i 0 hi
      (by intro j hj; simpa using hexc j hj) (by simpa using hresp)
    simpa [fetch_content] using h
  · intro trace i s b hi hexc hresp hs
    have h := fcGo_first_resp trace s b MAX_RETRIES i 0 hi
      (by intro j hj; simpa using hexc j hj) (by simpa using hresp)
    rw [if_neg hs] at h
    simpa [fetch_content] using h
  · intro trace hexc
    have h := fcGo_all_exc trace MAX_RETRIES 0
      (by intro j hj; simpa using hexc j hj)
    simpa [fetch_content] using h

/-- C5 amended, witness: the 404-terminality conjunct at a concrete trace
whose first attempt answers 404 and whose second would answer 200: the
fetch ends at once with no body and an untouched error count. -/
theorem fetch_classification_amended_witness :
    fetch_with_retry
      (fun i => if i = 0 then ReqResult.resp 404 "nf" else ReqResult.resp 200 "ok") 0
      = (none, 0) :=
  fetch_classification_amended.1
    (fun i => if i = 0 then ReqResult.resp 404 "nf" else ReqResult.resp 200 "ok")
    0 "nf" 0 (by decide) (fun j hj => absurd hj (Nat.not_lt_zero j)) rfl

/-! # Claim C6 — retry backoff schedules -/

/-- C6 counterexample: the claim says the retry delay doubles per attempt
in the two-phase probe/fetch functions as well; but `check_url_exists` and
`fetch_content` sleep the constant `RETRY_DELAY` between attempts, so the
schedule `[1, 1]` is not doubling. -/
theorem staff_retry_delay_not_doubling :
    ms_retry_sleeps = [RETRY_DELAY, RETRY_DELAY]
    ∧ chainDoubling ms_retry_sleeps = false := by
  refine ⟨rfl, rfl⟩

/-- C6 amended: `fetch_with_retry` (civicplus) sleeps `2 ** attempt`
between consecutive transient failures, a doubling and hence non-decreasing
schedule; the two-phase `check_url_exists`/`fetch_content` sleep the
constant `RETRY_DELAY` between attempts — still monotonically
non-decreasing, but not doubling. -/
theorem retry_delay_schedules_amended :
    cp_retry_sleeps = [1, 2]
    ∧ chainDoubling cp_retry_sleeps = true
    ∧ chainMono cp_retry_sleeps = true
    ∧ ms_retry_sleeps = [RETRY_DELAY, RETRY_DELAY]
    ∧ chainMono ms_retry_sleeps = true
    ∧ chainDoubling ms_retry_sleeps = false := by
  refine ⟨rfl, rfl, rfl, rfl, rfl, rfl⟩

/-! # Claim C1 — emission requires a non-empty identity field -/

/-- C1 counterexample: the claim says a record is emitted exactly when the
primary identity field is non-empty.  In `civicplus_scraper.py` a 200
staff page that parses with an empty `.BioName` still yields a record
(`scrape_staff` only checks that parsing did not raise), and a 200
department page with no `h1` likewise: both pipelines emit records whose
identity field is the empty string. -/
theorem civicplus_emits_record_with_empty_person :
    (cp_scrape_staff (some (200, blankStaffPage)) "Springfield, Ohio" "u").isSome = true
    ∧ (cp_parse_staff_page blankStaffPage "u").person = ""
    ∧ (cp_scrape_department (some (200, ⟨none, none, none⟩)) "Springfield, Ohio" "u").isSome
        = true
    ∧ (cp_parse_department_page ⟨none, none, none⟩).department = "" := by
  refine ⟨rfl, rfl, rfl, rfl⟩

/-- C1 amended: in `scrape_municipal_staff.py` the phase-2 emission test
emits a record exactly when the extracted person name is non-empty; in
`civicplus_scraper.py`, however, every 200 page that parses without an
exception is emitted as a record, even when its identity field (person
name or department name) is empty. -/
theorem emission_iff_identity_amended :
    ∀ (p : StaffPage) (d : DeptPage) (org url : String),
      ((phase2Emit org (extract_staff_info p url)).isSome
        ↔ (extract_staff_info p url).person ≠ "")
      ∧ (cp_scrape_staff (some (200, p)) org url).isSome = true
      ∧ (cp_scrape_department (some (200, d)) org url).isSome = true := by
  intro p d org url
  refine ⟨?_, rfl, rfl⟩
  by_cases h : (extract_staff_info p url).person = "" <;> simp [phase2Emit, h]

/-! # Claim C2 — durability flush after every store write -/

/-- C2 counterexample: the claim says every call appending records to the
output CSV is immediately followed by a flush.  The very first non-empty
batch write leaves the file handle unflushed: `write_batch_to_csv` only
flushes on every 10th batch or when more than 60 seconds have passed since
the last flush, so after this call one row has been written and zero rows
flushed. -/
theorem main_store_write_without_flush :
    (write_batch_to_csv ⟨[], 0, 0, none⟩ [demoRecord] 100).rows.length = 1
    ∧ (write_batch_to_csv ⟨[], 0, 0, none⟩ [demoRecord] 100).flushed = 0 := by
  refine ⟨rfl, rfl⟩

/-- C2 amended: an entry appended to the success side-log is always
immediately followed by a flush; a non-empty batch write to the main
output store, by contrast, leaves the handle flushed exactly when the call
is the 10th, 20th, … batch or more than 60 seconds have passed since the
last flush — so main-store writes are in general not followed by a
flush. -/
theorem store_flush_policy_amended (w : CsvWriter) (batch : List OutRecord) (now : Nat)
    (hne : batch ≠ []) (hinv : w.flushed ≤ w.rows.length) :
    (((write_batch_to_csv w batch now).flushed
        = (write_batch_to_csv w batch now).rows.length)
      ↔ ((w.batchCount + 1) % 10 = 0 ∨ now - w.lastFlush.getD now > 60))
    ∧ (∀ (lg : SideLog) (m s u pe d : String),
        (log_successful_eid lg m s u pe d).flushed
          = (log_successful_eid lg m s u pe d).rows.length) := by
  constructor
  · obtain ⟨a, t, rfl⟩ : ∃ a t, batch = a :: t := by
      cases batch with
      | nil => exact absurd rfl hne
      | cons a t => exact ⟨a, t, rfl⟩
    by_cases hc : (w.batchCount + 1) % 10 = 0 ∨ now - w.lastFlush.getD now > 60
    · simp only [write_batch_to_csv, List.isEmpty_cons, if_false, Bool.false_eq_true]
      rw [if_pos (by simpa [decide_eq_true_iff] using hc)]
      simpa using hc
    · simp only [write_batch_to_csv, List.isEmpty_cons, if_false, Bool.false_eq_true]
      rw [if_neg (by simpa [decide_eq_true_iff] using hc)]
      simp only [List.length_append, List.length_map, List.length_cons]
      constructor
      · intro h
        omega
      · intro h
        exact absurd h hc
  · intro lg m s u pe d
    simp [log_successful_eid]

/-- C2 amended, witness: the first conjunct of the amended theorem at the
fresh writer state, one record and time 0. -/
theorem store_flush_policy_amended_witness :
    ((write_batch_to_csv ⟨[], 0, 0, none⟩ [demoRecord] 0).flushed
        = (write_batch_to_csv ⟨[], 0, 0, none⟩ [demoRecord] 0).rows.length)
      ↔ (((⟨[], 0, 0, none⟩ : CsvWriter).batchCount + 1) % 10 = 0
          ∨ 0 - (⟨[], 0, 0, none⟩ : CsvWriter).lastFlush.getD 0 > 60) :=
  (store_flush_policy_amended ⟨[], 0, 0, none⟩ [demoRecord] 0
    (List.cons_ne_nil _ _) (Nat.le_refl 0)).1

/-! # Claim C3 — 404 probes and the not-found side-log -/

/-- Phase 1 never touches the not-found side-log: the `log_404_eid` call
in its 404 arm is commented out in the source. -/
theorem phase1Classify_notFoundLog (probes : Nat → Option Nat) :
    ∀ (eids : List Nat) (nf : SideLog), (phase1Classify probes eids nf).2 = nf := by
  intro eids
  induction eids with
  | nil => intro nf; rfl
  | cons e rest ih =>
    intro nf
    simp only [phase1Classify]
    cases hp : probes e with
    | none => exact ih nf
    | some st =>
      by_cases h1 : st = 404
      · simp [h1, ih nf]
      · by_cases h2 : st = 200
        · simp [h1, h2, ih nf]
        · simp [h1, h2, ih nf]

/-- Removing an EID whose probe answered 404 from the batch changes
nothing in phase 1. -/
theorem phase1Classify_drop_404 (probes : Nat → Option Nat) (e : Nat)
    (h404 : probes e = some 404) :
    ∀ (pre post : List Nat) (nf : SideLog),
      phase1Classify probes (pre ++ e :: post) nf
        = phase1Classify probes (pre ++ post) nf := by
  intro pre
  induction pre with
  | nil => intro post nf; simp [phase1Classify, h404]
  | cons c pre ih =>
    intro post nf
    simp only [List.cons_append, phase1Classify]
    cases hp : probes c with
    | none => exact ih post nf
    | some st =>
      by_cases h1 : st = 404
      · simp [h1, ih post nf]
      · by_cases h2 : st = 200
        · simp [h1, h2, ih post nf]
        · simp [h1, h2, ih post nf]

/-- C3 counterexample: the claim says a 404-classified probe appends
exactly one entry to the not-found side-log.  Probing EID 43 against a
trace that answers 404 leaves the not-found log empty (it gains zero
lines, because the `log_404_eid` call is commented out at its only call
site) — and emits no record. -/
theorem probe_404_appends_no_entry :
    (process_eid_batch (fun _ => some 404) (fun _ => none)
      "https://www.springfieldoh.example/directory.aspx?EID=" "Springfield" "Ohio"
      [43] [] ⟨[], 0⟩ ⟨[], 0⟩).notFoundLog.rows.length = 0
    ∧ (process_eid_batch (fun _ => some 404) (fun _ => none)
      "https://www.springfieldoh.example/directory.aspx?EID=" "Springfield" "Ohio"
      [43] [] ⟨[], 0⟩ ⟨[], 0⟩).records = [] := by
  refine ⟨rfl, rfl⟩

/-- C3 amended: for every probed staff id classified 404, no record is
emitted for that id and the whole batch result is as if the id had not
been probed at all; in particular the not-found side-log gains no entry,
because the `log_404_eid` call in `process_eid_batch` is commented out.
The `log_404_eid` helper itself, were it called, would append exactly one
(identifier, grouping attribute, URL) row and flush it. -/
theorem probe_404_amended (probes : Nat → Option Nat) (contents : Nat → Option StaffPage)
    (eidBase mun st : String) (pre post : List Nat) (e : Nat)
    (recs : List OutRecord) (slog nflog : SideLog)
    (h404 : probes e = some 404) :
    process_eid_batch probes contents eidBase mun st (pre ++ e :: post) recs slog nflog
      = process_eid_batch probes contents eidBase mun st (pre ++ post) recs slog nflog
    ∧ (process_eid_batch probes contents eidBase mun st (pre ++ e :: post)
        recs slog nflog).notFoundLog = nflog
    ∧ (∀ (lg : SideLog) (m s u : String),
        (log_404_eid lg m s u).rows = lg.rows ++ [[m, s, u]]
        ∧ (log_404_eid lg m s u).flushed = (log_404_eid lg m s u).rows.length) := by
  refine ⟨?_, ?_, ?_⟩
  · simp [process_eid_batch, phase1Classify_drop_404 probes e h404]
  · simp [process_eid_batch, phase1Classify_notFoundLog]
  · intro lg m s u
    simp [log_404_eid]

/-- C3 amended, witness: the amended theorem at the singleton batch
`[43]` whose probe answers 404. -/
theorem probe_404_amended_witness :
    (process_eid_batch (fun _ => some 404) (fun _ => none) "b" "m" "s"
      [43] [] ⟨[], 0⟩ ⟨[], 0⟩).notFoundLog = (⟨[], 0⟩ : SideLog) :=
  (probe_404_amended (fun _ => some 404) (fun _ => none) "b" "m" "s"
    [] [] 43 [] ⟨[], 0⟩ ⟨[], 0⟩ rfl).2.1

/-! # Claim C7 — the adaptive rate controller -/

theorem intSpeedup_ge (n : Nat) : n ≤ intSpeedup n := by
  rw [intSpeedup, Nat.le_div_iff_mul_le (by norm_num)]
  omega

theorem intSpeedup_gt (n : Nat) (h : 5 ≤ n) : n < intSpeedup n := by
  have : n + 1 ≤ intSpeedup n := by
    rw [intSpeedup, Nat.le_div_iff_mul_le (by norm_num)]
    omega
  omega

theorem intBackoff_le (n : Nat) : intBackoff n ≤ n := by
  have h7 : 7 * n / 7 = n := by omega
  calc 7 * n / 10 ≤ 7 * n / 7 := Nat.div_le_div_left (by norm_num) (by norm_num)
    _ = n := h7

theorem intBackoff_lt (n : Nat) (h : 1 ≤ n) : intBackoff n < n := by
  rw [intBackoff, Nat.div_lt_iff_lt_mul (by norm_num)]
  omega

@[simp] theorem successAccum_limit (s : SmartRateLimiter) (k : Nat) :
    (successAccum s k).concurrent_limit = s.concurrent_limit := rfl

@[simp] theorem successAccum_succ (s : SmartRateLimiter) (k : Nat) :
    (successAccum s k).consecutive_successes = s.consecutive_successes + k := rfl

@[simp] theorem failureAccum_limit (s : SmartRateLimiter) (k : Nat) :
    (failureAccum s k).concurrent_limit = s.concurrent_limit := rfl

@[simp] theorem failureAccum_fail (s : SmartRateLimiter) (k : Nat) :
    (failureAccum s k).consecutive_failures = s.consecutive_failures + k := rfl

theorem record_success_batch_limit_mono (s : SmartRateLimiter) (k : Nat) :
    s.concurrent_limit ≤ (record_success_batch s k).concurrent_limit := by
  unfold record_success_batch
  split
  · rename_i hc
    have hlt : s.concurrent_limit < max_concurrent := by
      simp [can_increase_concurrency] at hc
      exact hc.2
    exact le_min (Nat.le_of_lt hlt) (by simpa using intSpeedup_ge s.concurrent_limit)
  · exact Nat.le_refl _

theorem record_success_batch_limit_lb (s : SmartRateLimiter) (k : Nat)
    (h : min_concurrent ≤ s.concurrent_limit) :
    min_concurrent ≤ (record_success_batch s k).concurrent_limit :=
  Nat.le_trans h (record_success_batch_limit_mono s k)

theorem record_success_batch_limit_ub (s : SmartRateLimiter) (k : Nat)
    (h : s.concurrent_limit ≤ max_concurrent) :
    (record_success_batch s k).concurrent_limit ≤ max_concurrent := by
  unfold record_success_batch
  split
  · exact min_le_left _ _
  · exact h

theorem record_rate_limit_batch_limit_le (s : SmartRateLimiter) (k : Nat)
    (h : min_concurrent ≤ s.concurrent_limit) :
    (record_rate_limit_batch s k).concurrent_limit ≤ s.concurrent_limit := by
  unfold record_rate_limit_batch
  split
  · exact max_le h (by simpa using intBackoff_le s.concurrent_limit)
  · exact Nat.le_refl _

theorem record_rate_limit_batch_limit_lb (s : SmartRateLimiter) (k : Nat)
    (h : min_concurrent ≤ s.concurrent_limit) :
    min_concurrent ≤ (record_rate_limit_batch s k).concurrent_limit := by
  unfold record_rate_limit_batch
  split
  · exact le_max_left _ _
  · exact h

theorem record_rate_limit_batch_limit_ub (s : SmartRateLimiter) (k : Nat)
    (hlb : min_concurrent ≤ s.concurrent_limit) (h : s.concurrent_limit ≤ max_concurrent) :
    (record_rate_limit_batch s k).concurrent_limit ≤ max_concurrent :=
  Nat.le_trans (record_rate_limit_batch_limit_le s k hlb) h

theorem foldl_success_limit_mono (ks : List Nat) :
    ∀ s : SmartRateLimiter,
      s.concurrent_limit ≤ (List.foldl record_success_batch s ks).concurrent_limit := by
  induction ks with
  | nil => intro s; exact Nat.le_refl _
  | cons k rest ih =>
    intro s
    exact Nat.le_trans (record_success_batch_limit_mono s k) (ih _)

theorem foldl_failure_limit_le (ks : List Nat) :
    ∀ s : SmartRateLimiter, min_concurrent ≤ s.concurrent_limit →
      (List.foldl record_rate_limit_batch s ks).concurrent_limit ≤ s.concurrent_limit := by
  induction ks with
  | nil => intro s _; exact Nat.le_refl _
  | cons k rest ih =>
    intro s hs
    exact Nat.le_trans (ih _ (record_rate_limit_batch_limit_lb s k hs))
      (record_rate_limit_batch_limit_le s k hs)

/-- A window of all-success batches whose accumulated streak reaches the
threshold of 5 strictly increases the limit when the limit is at least 5
and below the maximum. -/
theorem success_window (ks : List Nat) :
    ∀ s : SmartRateLimiter, ks ≠ [] →
      5 ≤ s.concurrent_limit → s.concurrent_limit < max_concurrent →
      5 ≤ s.consecutive_successes + ks.sum →
      s.concurrent_limit < (List.foldl record_success_batch s ks).concurrent_limit := by
  induction ks with
  | nil => intro s hne; exact absurd rfl hne
  | cons k rest ih =>
    intro s _ h5 hmax hsum
    by_cases hc : 5 ≤ s.consecutive_successes + k
    · have hstep : s.concurrent_limit < (record_success_batch s k).concurrent_limit := by
        unfold record_success_batch
        rw [if_pos]
        · exact lt_min hmax (by simpa using intSpeedup_gt s.concurrent_limit h5)
        · simp [can_increase_concurrency]
          exact ⟨hc, hmax⟩
      exact Nat.lt_of_lt_of_le hstep (foldl_success_limit_mono rest _)
    · have hnc : ¬ (can_increase_concurrency (successAccum s k) = true) := by
        simp [can_increase_concurrency]
        intro h
        exact absurd h hc
      have hform : record_success_batch s k = successAccum s k := by
        unfold record_success_batch
        rw [if_neg hnc]
      have hrest : rest ≠ [] := by
        intro hr
        rw [hr] at hsum
        simp at hsum
        omega
      have := ih (record_success_batch s k) hrest
        (by rw [hform]; simpa using h5) (by rw [hform]; simpa using hmax)
        (by rw [hform]; simp at hsum ⊢; omega)
      calc s.concurrent_limit = (record_success_batch s k).concurrent_limit := by
            rw [hform]; simp
        _ < _ := this

/-- A window of all-failure batches whose accumulated streak reaches the
threshold of 2 strictly decreases the limit when the limit is above the
minimum. -/
theorem failure_window (ks : List Nat) :
    ∀ s : SmartRateLimiter, ks ≠ [] →
      min_concurrent < s.concurrent_limit → s.concurrent_limit ≤ max_concurrent →
      2 ≤ s.consecutive_failures + ks.sum →
      (List.foldl record_rate_limit_batch s ks).concurrent_limit < s.concurrent_limit := by
  induction ks with
  | nil => intro s hne; exact absurd rfl hne
  | cons k rest ih =>
    intro s _ hmin hub hsum
    by_cases hc : 2 ≤ s.consecutive_failures + k
    · have hstep : (record_rate_limit_batch s k).concurrent_limit < s.concurrent_limit := by
        unfold record_rate_limit_batch
        rw [if_pos]
        · refine max_lt hmin ?_
          have h1 : 1 ≤ s.concurrent_limit := by
            have : min_concurrent = 3 := rfl
            omega
          simpa using intBackoff_lt s.concurrent_limit h1
        · simp [should_decrease_concurrency]
          exact hc
      have hlb : min_concurrent ≤ (record_rate_limit_batch s k).concurrent_limit :=
        record_rate_limit_batch_limit_lb s k (Nat.le_of_lt hmin)
      exact Nat.lt_of_le_of_lt (foldl_failure_limit_le rest _ hlb) hstep
    · have hnc : ¬ (should_decrease_concurrency (failureAccum s k) = true) := by
        simp [should_decrease_concurrency]
        omega
      have hform : record_rate_limit_batch s k = failureAccum s k := by
        unfold record_rate_limit_batch
        rw [if_neg hnc]
      have hrest : rest ≠ [] := by
        intro hr
        rw [hr] at hsum
        simp at hsum
        omega
      have := ih (record_rate_limit_batch s k) hrest
        (by rw [hform]; simpa using hmin) (by rw [hform]; simpa using hub)
        (by rw [hform]; simp at hsum ⊢; omega)
      calc (List.foldl record_rate_limit_batch (record_rate_limit_batch s k) rest).concurrent_limit
          < (record_rate_limit_batch s k).concurrent_limit := this
        _ = s.concurrent_limit := by rw [hform]; simp

/-- Any interleaving of recorded batches keeps the limit within
`[min_concurrent, max_concurrent]`. -/
theorem rate_ops_bounds (ops : List (Bool × Nat)) :
    ∀ s : SmartRateLimiter,
      min_concurrent ≤ s.concurrent_limit → s.concurrent_limit ≤ max_concurrent →
      min_concurrent ≤ (List.foldl applyRateOp s ops).concurrent_limit
      ∧ (List.foldl applyRateOp s ops).concurrent_limit ≤ max_concurrent := by
  induction ops with
  | nil => intro s h1 h2; exact ⟨h1, h2⟩
  | cons op rest ih =>
    intro s h1 h2
    apply ih
    · unfold applyRateOp
      split
      · exact record_success_batch_limit_lb s op.2 h1
      · exact record_rate_limit_batch_limit_lb s op.2 h1
    · unfold applyRateOp
      split
      · exact record_success_batch_limit_ub s op.2 h2
      · exact record_rate_limit_batch_limit_ub s op.2 h1 h2

/-- C7 counterexample: the claim says a window of all-success batches
strictly increases the limit at least once unless it is already at max.
Starting at limit 3 (the minimum, well below the maximum of 50), three
success batches of 5 requests each — each one reaching the streak
threshold and triggering an adjustment — leave the limit at 3, because
`int(3 * 1.2) = 3`: the truncated multiplication returns the limit
unchanged, so no window of successes can ever increase it. -/
theorem rate_limiter_stuck_at_min :
    (List.foldl record_success_batch ⟨3, 0, 0, 0, 0⟩ [5, 5, 5]).concurrent_limit = 3
    ∧ min_concurrent ≤ 3 ∧ 3 < max_concurrent := by
  refine ⟨rfl, by decide, by decide⟩

/-- C7 amended: for a controller started anywhere in `[min, max]`: a
non-empty window of all-success batches whose accumulated streak reaches
the threshold strictly increases the limit at least once — provided the
limit is at least 5 (for limits 3 and 4 the truncated `int(limit * 1.2)`
returns the limit unchanged) and below max; a non-empty window of
all-failure batches whose accumulated streak reaches the threshold
strictly decreases the limit at least once unless it is already at min;
any sequence of recorded batches keeps the limit within `[min, max]`; and
the corresponding streak counter is reset on every adjustment (each call
also zeroes the opposite streak counter). -/
theorem rate_limiter_amended :
    (∀ (ks : List Nat) (s : SmartRateLimiter), ks ≠ [] →
      5 ≤ s.concurrent_limit → s.concurrent_limit < max_concurrent →
      5 ≤ s.consecutive_successes + ks.sum →
      s.concurrent_limit < (List.foldl record_success_batch s ks).concurrent_limit)
    ∧ (∀ (ks : List Nat) (s : SmartRateLimiter), ks ≠ [] →
      min_concurrent < s.concurrent_limit → s.concurrent_limit ≤ max_concurrent →
      2 ≤ s.consecutive_failures + ks.sum →
      (List.foldl record_rate_limit_batch s ks).concurrent_limit < s.concurrent_limit)
    ∧ (∀ (ops : List (Bool × Nat)) (s : SmartRateLimiter),
      min_concurrent ≤ s.concurrent_limit → s.concurrent_limit ≤ max_concurrent →
      min_concurrent ≤ (List.foldl applyRateOp s ops).concurrent_limit
      ∧ (List.foldl applyRateOp s ops).concurrent_limit ≤ max_concurrent)
    ∧ (∀ (s : SmartRateLimiter) (k : Nat),
      (record_success_batch s k).consecutive_failures = 0
      ∧ (5 ≤ s.consecutive_successes + k → s.concurrent_limit < max_concurrent →
          (record_success_batch s k).consecutive_successes = 0))
    ∧ (∀ (s : SmartRateLimiter) (k : Nat),
      (record_rate_limit_batch s k).consecutive_successes = 0
      ∧ (2 ≤ s.consecutive_failures + k →
          (record_rate_limit_batch s k).consecutive_failures = 0)) := by
  refine ⟨success_window, failure_window, rate_ops_bounds, ?_, ?_⟩
  · intro s k
    constructor
    · unfold record_success_batch
      split <;> rfl
    · intro hthr hmax
      unfold record_success_batch
      rw [if_pos]
      simp [can_increase_concurrency]
      exact ⟨hthr, hmax⟩
  · intro s k
    constructor
    · unfold record_rate_limit_batch
      split <;> rfl
    · intro hthr
      unfold record_rate_limit_batch
      rw [if_pos]
      simp [should_decrease_concurrency]
      exact hthr

/-- C7 amended, witness: one success batch of 5 from limit 5 strictly
increases the limit. -/
theorem rate_limiter_amended_witness :
    (⟨5, 0, 0, 0, 0⟩ : SmartRateLimiter).concurrent_limit
      < (List.foldl record_success_batch ⟨5, 0, 0, 0, 0⟩ [5]).concurrent_limit :=
  rate_limiter_amended.1 [5] ⟨5, 0, 0, 0, 0⟩ (List.cons_ne_nil _ _)
    (by decide) (by decide) (by decide)

/-! # Claims C9 and C10 — the e-mail fallback chain -/

theorem startsWithL_decomp (p : List Char) :
    ∀ s : List Char, startsWithL p s = true → s = p ++ s.drop p.length := by
  induction p with
  | nil => intro s _; rfl
  | cons c cs ih =>
    intro s h
    cases s with
    | nil => simp [startsWithL] at h
    | cons d ds =>
      simp only [startsWithL] at h
      by_cases hcd : c = d
      · rw [if_pos hcd] at h
        subst hcd
        simpa using ih ds h
      · rw [if_neg hcd] at h
        exact absurd h (by simp)

theorem pyDrop_mailto_ne_empty (h : String)
    (hsw : pyStartsWith h "mailto:" = true) (hne : h ≠ "mailto:") :
    pyDrop h 7 ≠ "" := by
  intro hdrop
  apply hne
  have hd : h.data = "mailto:".data ++ h.data.drop 7 :=
    startsWithL_decomp "mailto:".data h.data hsw
  have hd7 : h.data.drop 7 = [] := congrArg String.data hdrop
  rw [hd7, List.append_nil] at hd
  cases h with
  | mk l => exact congrArg String.mk hd

theorem firstMailtoHref_eq_find (l : List String) :
    firstMailtoHref l
      = match l.find? (fun h => pyStartsWith h "mailto:") with
        | some h => pyDrop h 7
        | none => "" := by
  induction l with
  | nil => rfl
  | cons h t ih =>
    by_cases hsw : pyStartsWith h "mailto:" = true
    · simp [firstMailtoHref, List.find?_cons, hsw]
    · simp only [Bool.not_eq_true] at hsw
      simp [firstMailtoHref, List.find?_cons, hsw, ih]

/-- The shared tail of the chain — the page-wide `mailto:` scan followed by
the gated JavaScript reconstruction — written as the code computes it
equals its `find?` reformulation. -/
theorem pageFallback_eq (anchors : List String) (raw : String) :
    (if firstMailtoHref anchors = "" && strContainsSub (pyLower raw) "mailto:" then
        extract_email_from_javascript raw
      else firstMailtoHref anchors)
      = (match anchors.find? (fun h => pyStartsWith h "mailto:") with
        | some h =>
          if h = "mailto:" then
            (if strContainsSub (pyLower raw) "mailto:" then
              extract_email_from_javascript raw else "")
          else pyDrop h 7
        | none =>
          (if strContainsSub (pyLower raw) "mailto:" then
            extract_email_from_javascript raw else "")) := by
  rw [firstMailtoHref_eq_find]
  cases hf : anchors.find? (fun h => pyStartsWith h "mailto:") with
  | none =>
    simp only []
    by_cases hc : strContainsSub (pyLower raw) "mailto:" = true <;> simp [hc]
  | some h =>
    have hsw : pyStartsWith h "mailto:" = true := by
      have := List.find?_some hf
      simpa using this
    by_cases hm : h = "mailto:"
    · subst hm
      have hdrop : pyDrop "mailto:" 7 = "" := rfl
      simp only [hdrop]
      by_cases hc : strContainsSub (pyLower raw) "mailto:" = true <;> simp [hc]
    · have hdrop : pyDrop h 7 ≠ "" := pyDrop_mailto_ne_empty h hsw hm
      simp [hm, hdrop]

/-- C9 counterexample: the claim says the e-mail is the address of the
first `mailto:` anchor inside the biography block whenever the block
contains one.  On a page whose biography block's first `href` anchor is a
plain link (`/map`) followed by `mailto:a@b.org`, and which carries
`mailto:c@d.org` earlier in the document, the code skips the biography
step entirely — it only inspects the block's first anchor — and returns
`c@d.org` from the page-wide scan, while the claimed chain yields
`a@b.org`. -/
theorem email_chain_spec_mismatch :
    (extract_staff_info mixedAnchorPage "u").email = "c@d.org"
    ∧ specStaffEmail mixedAnchorPage = "a@b.org"
    ∧ (extract_staff_info mixedAnchorPage "u").email ≠ specStaffEmail mixedAnchorPage := by
  refine ⟨by decide, by decide, by decide⟩

/-- C9 amended: the extracted e-mail is the address of the *first
`href`-carrying anchor* of the biography block when that anchor has the
`mailto:` scheme and a non-empty address part; otherwise the address of
the first `mailto:`-scheme anchor anywhere on the page when its address
part is non-empty; otherwise — only when the literal `'mailto:'` occurs in
the lowercased raw HTML — the script-variable reconstruction
(`wsd`/`xsd`, or the quoted `'...' + '@' + '...'` pattern); otherwise
the empty string. -/
theorem email_fallback_chain_amended (p : StaffPage) (url : String) :
    (extract_staff_info p url).email = amendedStaffEmail p := by
  cases hb : p.bioText with
  | none =>
    simp only [extract_staff_info, amendedStaffEmail, bioAnchors, hb]
    simpa using pageFallback_eq p.pageAnchorHrefs p.rawHtml
  | some b =>
    cases ha : b.anchorHrefs with
    | nil =>
      simp only [extract_staff_info, amendedStaffEmail, bioAnchors, hb, ha]
      simpa using pageFallback_eq p.pageAnchorHrefs p.rawHtml
    | cons h t =>
      by_cases hsw : pyStartsWith h "mailto:" = true
      · by_cases hm : h = "mailto:"
        · subst hm
          have hdrop : pyDrop "mailto:" 7 = "" := rfl
          simp only [extract_staff_info, amendedStaffEmail, bioAnchors, hb, ha, hsw,
            if_true, hdrop]
          simpa [hsw] using pageFallback_eq p.pageAnchorHrefs p.rawHtml
        · have hdrop : pyDrop h 7 ≠ "" := pyDrop_mailto_ne_empty h hsw hm
          simp [extract_staff_info, amendedStaffEmail, bioAnchors, hb, ha, hsw, hm, hdrop]
      · simp only [Bool.not_eq_true] at hsw
        simp only [extract_staff_info, amendedStaffEmail, bioAnchors, hb, ha, hsw]
        simpa [hsw] using pageFallback_eq p.pageAnchorHrefs p.rawHtml

/-- C10: when the document has no `mailto:`-scheme anchor (the biography
block's anchors being among the document's) and the literal `'mailto:'`
does not occur in the lowercased raw HTML, `extract_staff_info` returns an
empty e-mail — even when the raw HTML contains script-variable assignments
from which `extract_email_from_javascript` would reconstruct a non-empty
address. -/
theorem js_extraction_gated_on_mailto (p : StaffPage) (url : String)
    (hsub : ∀ h ∈ bioAnchors p, h ∈ p.pageAnchorHrefs)
    (hpage : ∀ h ∈ p.pageAnchorHrefs, pyStartsWith h "mailto:" = false)
    (hraw : strContainsSub (pyLower p.rawHtml) "mailto:" = false)
    (hjs : extract_email_from_javascript p.rawHtml ≠ "") :
    (extract_staff_info p url).email = "" := by
  have hfm : firstMailtoHref p.pageAnchorHrefs = "" := by
    rw [firstMailtoHref_eq_find]
    cases hf : p.pageAnchorHrefs.find? (fun h => pyStartsWith h "mailto:") with
    | none => rfl
    | some h =>
      have hsw : pyStartsWith h "mailto:" = true := by
        have := List.find?_some hf
        simpa using this
      have hmem : h ∈ p.pageAnchorHrefs := List.mem_of_find?_eq_some hf
      rw [hpage h hmem] at hsw
      cases hsw
  cases hb : p.bioText with
  | none => simp [extract_staff_info, hb, hfm, hraw]
  | some b =>
    cases ha : b.anchorHrefs with
    | nil => simp [extract_staff_info, hb, ha, hfm, hraw]
    | cons h t =>
      have hmem : h ∈ bioAnchors p := by
        simp [bioAnchors, hb, ha]
      have hsw : pyStartsWith h "mailto:" = false := hpage h (hsub h hmem)
      simp [extract_staff_info, hb, ha, hsw, hfm, hraw]

/-- C10 witness: a page with no anchors whatsoever and no `mailto:` text,
whose script block assigns `wsd`/`xsd` composing `info@town.gov`: the
extracted e-mail is nevertheless empty. -/
theorem js_extraction_gated_on_mailto_witness :
    (extract_staff_info scriptOnlyPage "u").email = ""
    ∧ extract_email_from_javascript scriptOnlyPage.rawHtml = "info@town.gov" :=
  ⟨js_extraction_gated_on_mailto scriptOnlyPage "u"
      (by intro h hm; simp [bioAnchors, scriptOnlyPage] at hm)
      (by intro h hm; simp [scriptOnlyPage] at hm)
      (by decide) (by decide),
    by decide⟩

/-! # Claim C8 — candidate URL construction -/

theorem startsWithL_refl_append (p r : List Char) : startsWithL p (p ++ r) = true := by
  induction p with
  | nil => rfl
  | cons c cs ih => simp [startsWithL, ih]

theorem isNetlocChar_ne_slash {c : Char} (h : isNetlocChar c = true) : ¬ c = '/' := by
  simp [isNetlocChar] at h
  exact h.1.1

theorem takeWhileAll {pr : Char → Bool} :
    ∀ l : List Char, (∀ c ∈ l, pr c = true) → l.takeWhile pr = l := by
  intro l
  induction l with
  | nil => intro _; rfl
  | cons c t ih =>
    intro h
    rw [List.takeWhile_cons_of_pos (h c (List.mem_cons_self c t))]
    rw [ih (fun d hd => h d (List.mem_cons_of_mem c hd))]

theorem takeWhileAppendAll {pr : Char → Bool} (l r : List Char)
    (h : ∀ c ∈ l, pr c = true) :
    (l ++ r).takeWhile pr = l ++ r.takeWhile pr := by
  induction l with
  | nil => rfl
  | cons c t ih =>
    rw [List.cons_append, List.takeWhile_cons_of_pos (h c (List.mem_cons_self c t))]
    rw [ih (fun d hd => h d (List.mem_cons_of_mem c hd)), List.cons_append]

theorem rstripSlashL_no_trailing (pre l : List Char) (hne : l ≠ [])
    (hl : ∀ c ∈ l, ¬ c = '/') : rstripSlashL (pre ++ l) = pre ++ l := by
  cases hr : l.reverse with
  | nil => exact absurd (List.reverse_eq_nil_iff.mp hr) hne
  | cons c t =>
    have hc : c ∈ l := by
      rw [← List.mem_reverse, hr]
      exact List.mem_cons_self c t
    have hdw : ((pre ++ l).reverse).dropWhile (fun c => c = '/') = (pre ++ l).reverse := by
      rw [List.reverse_append, hr, List.cons_append]
      exact List.dropWhile_cons_of_neg (by simpa using hl c hc)
    rw [rstripSlashL, hdw, List.reverse_reverse]

theorem rstripSlashL_trailing_slash (pre l : List Char) (hne : l ≠ [])
    (hl : ∀ c ∈ l, ¬ c = '/') : rstripSlashL (pre ++ l ++ ['/']) = pre ++ l := by
  cases hr : l.reverse with
  | nil => exact absurd (List.reverse_eq_nil_iff.mp hr) hne
  | cons c t =>
    have hc : c ∈ l := by
      rw [← List.mem_reverse, hr]
      exact List.mem_cons_self c t
    have hrev : (pre ++ l ++ ['/']).reverse = '/' :: c :: (t ++ pre.reverse) := by
      rw [List.reverse_append, List.reverse_append, hr]
      rfl
    rw [rstripSlashL, hrev, List.dropWhile_cons_of_pos (by simp),
      List.dropWhile_cons_of_neg (by simpa using hl c hc)]
    have hback : c :: (t ++ pre.reverse) = (pre ++ l).reverse := by
      rw [List.reverse_append, hr]
      rfl
    rw [hback, List.reverse_reverse]

theorem splitScheme_append (sch : List Char) :
    ∀ rest : List Char, '/' ∉ sch →
      splitScheme (sch ++ ':' :: '/' :: '/' :: rest) = some (sch, rest) := by
  induction sch with
  | nil =>
    intro rest _
    simp [splitScheme, startsWithL]
  | cons c sc ih =>
    intro rest h
    have hns : '/' ∉ sc := fun hm => h (List.mem_cons_of_mem c hm)
    have hsw : startsWithL ['/', '/'] (sc ++ ':' :: '/' :: '/' :: rest) = false := by
      cases sc with
      | nil => rfl
      | cons d ds =>
        have hd : ¬ ('/' = d) := fun he =>
          hns (he ▸ List.mem_cons_self d ds)
        rw [List.cons_append]
        simp only [startsWithL]
        rw [if_neg hd]
    rw [List.cons_append, splitScheme]
    rw [hsw]
    simp only [Bool.and_false, Bool.false_eq_true, if_false]
    rw [ih rest hns]

/-- `urljoin` with a root-relative reference, on a base of the shape
`scheme://host⟨tail⟩` where the netloc scan stops exactly at `tail`. -/
theorem pyUrljoinRoot_eq (sch host tail ref : List Char) (hsch : '/' ∉ sch)
    (hhost : ∀ c ∈ host, isNetlocChar c = true)
    (htail : tail.takeWhile isNetlocChar = []) :
    pyUrljoinRoot (sch ++ ':' :: '/' :: '/' :: (host ++ tail)) ref
      = sch ++ ':' :: '/' :: '/' :: (host ++ ref) := by
  rw [pyUrljoinRoot, splitScheme_append sch (host ++ tail) hsch]
  dsimp only
  rw [takeWhileAppendAll host tail hhost, htail, List.append_nil]
  simp

theorem msSchemePrefixed_of_https (rest : List Char) :
    msSchemePrefixed ⟨"https://".data ++ rest⟩ = ⟨"https://".data ++ rest⟩ := by
  unfold msSchemePrefixed
  have h2 : startsWithL "https://".data (String.mk ("https://".data ++ rest)).data = true :=
    startsWithL_refl_append _ _
  rw [h2, Bool.or_true]
  simp

theorem startsWithL_false_of_no_slash (pre host : List Char) (hmem : '/' ∈ pre)
    (hhost : ∀ c ∈ host, isNetlocChar c = true) : startsWithL pre host = false := by
  cases hsw : startsWithL pre host with
  | false => rfl
  | true =>
    have hd := startsWithL_decomp pre host hsw
    have : '/' ∈ host := by
      rw [hd]
      exact List.mem_append_left _ hmem
    exact absurd (hhost '/' this) (by decide)

/-- C8 counterexample: the claim says the candidate staff URL equals
`<b>/directory.aspx?EID=<n>` with trailing-slash removal the only
normalization of `b`.  For `b = "https://example.com"` the staff scraper
produces `https://www.example.com/directory.aspx?EID=5`: it also rewrites
the host to carry a `www.` prefix, so the produced URL differs from the
claimed plain join. -/
theorem staff_url_not_plain_join :
    msEidUrl "https://example.com" 5 = "https://www.example.com/directory.aspx?EID=5"
    ∧ msEidUrl "https://example.com" 5
        ≠ "https://example.com" ++ "/directory.aspx?EID=" ++ Nat.repr 5 := by
  refine ⟨by decide, by decide⟩

/-- C8 amended: both scrapers join the root-relative reference
(`/Directory.aspx?DID=<n>` resp. `/directory.aspx?EID=<n>`) onto the
*origin* (`scheme://host`) of the normalized base.  For a base of the
shape `https://host` — with or without a trailing slash — this agrees
with the claimed `<b>/...` formula; any path component of the base is
dropped by the join; and the staff scraper additionally prefixes
`https://` when the base has no scheme and `www.` when the host lacks it,
so its candidate URLs come from the rewritten host, not from `b`
itself. -/
theorem url_construction_amended (host path : List Char) (n : Nat)
    (hhost : ∀ c ∈ host, isNetlocChar c = true) (hne : host ≠ [])
    (hpath : ∀ c ∈ path, isNetlocChar c = true) (hpne : path ≠ [])
    (hww : startsWithL "www.".data host = false) :
    cpDidUrl ⟨"https://".data ++ host⟩ n
      = ⟨"https://".data ++ host ++ "/Directory.aspx?DID=".data ++ (Nat.repr n).data⟩
    ∧ cpDidUrl ⟨"https://".data ++ host ++ ['/']⟩ n
      = ⟨"https://".data ++ host ++ "/Directory.aspx?DID=".data ++ (Nat.repr n).data⟩
    ∧ cpDidUrl ⟨"https://".data ++ host ++ '/' :: path⟩ n
      = ⟨"https://".data ++ host ++ "/Directory.aspx?DID=".data ++ (Nat.repr n).data⟩
    ∧ msEidUrl ⟨"https://www.".data ++ host⟩ n
      = ⟨"https://www.".data ++ host ++ "/directory.aspx?EID=".data ++ (Nat.repr n).data⟩
    ∧ msEidUrl ⟨host⟩ n
      = ⟨"https://www.".data ++ host ++ "/directory.aspx?EID=".data ++ (Nat.repr n).data⟩ := by
  have hslash : ∀ c ∈ host, ¬ c = '/' := fun c hc => isNetlocChar_ne_slash (hhost c hc)
  have hpslash : ∀ c ∈ path, ¬ c = '/' := fun c hc => isNetlocChar_ne_slash (hpath c hc)
  have hwhost : ∀ c ∈ "www.".data ++ host, isNetlocChar c = true := by
    intro c hc
    rcases List.mem_append.mp hc with hw | hh
    · fin_cases hw <;> decide
    · exact hhost c hh
  refine ⟨?_, ?_, ?_, ?_, ?_⟩
  · unfold cpDidUrl
    apply congrArg String.mk
    have hb : rstripSlashL (String.mk ("https://".data ++ host)).data
        = "https".data ++ ':' :: '/' :: '/' :: (host ++ []) := by
      rw [show (String.mk ("https://".data ++ host)).data = "https://".data ++ host from rfl,
        rstripSlashL_no_trailing _ _ hne hslash, List.append_nil]
      exact rfl
    rw [hb, pyUrljoinRoot_eq "https".data host [] _ (by decide) hhost rfl]
    simp only [List.append_assoc]
    rfl
  · unfold cpDidUrl
    apply congrArg String.mk
    have hb : rstripSlashL (String.mk ("https://".data ++ host ++ ['/'])).data
        = "https".data ++ ':' :: '/' :: '/' :: (host ++ []) := by
      rw [show (String.mk ("https://".data ++ host ++ ['/'])).data
            = "https://".data ++ host ++ ['/'] from rfl,
        rstripSlashL_trailing_slash _ _ hne hslash, List.append_nil]
      exact rfl
    rw [hb, pyUrljoinRoot_eq "https".data host [] _ (by decide) hhost rfl]
    simp only [List.append_assoc]
    rfl
  · unfold cpDidUrl
    apply congrArg String.mk
    have hb : rstripSlashL (String.mk ("https://".data ++ host ++ '/' :: path)).data
        = "https".data ++ ':' :: '/' :: '/' :: (host ++ '/' :: path) := by
      rw [show (String.mk ("https://".data ++ host ++ '/' :: path)).data
            = ("https://".data ++ host ++ ['/']) ++ path from by simp,
        rstripSlashL_no_trailing _ _ hpne hpslash]
      simp
    rw [hb, pyUrljoinRoot_eq "https".data host ('/' :: path) _ (by decide) hhost
      (List.takeWhile_cons_of_neg (by decide))]
    simp only [List.append_assoc]
    rfl
  · have hnorm : msNormalizeWebsite ⟨"https://www.".data ++ host⟩
        = ⟨"https://www.".data ++ host⟩ := by
      unfold msNormalizeWebsite
      rw [show ("https://www.".data ++ host : List Char)
            = "https://".data ++ ("www.".data ++ host) from by simp,
        msSchemePrefixed_of_https ("www.".data ++ host)]
      rw [show (String.mk ("https://".data ++ ("www.".data ++ host))).data
            = "https".data ++ ':' :: '/' :: '/' :: ("www.".data ++ host) from rfl,
        splitScheme_append "https".data _ (by decide)]
      dsimp only
      rw [takeWhileAll _ hwhost]
      rw [show startsWithL "www.".data ("www.".data ++ host) = true from
        startsWithL_refl_append _ _]
      simp
    unfold msEidUrl
    rw [hnorm]
    apply congrArg₂ (fun (a : String) (b : String) => a ++ b) ?_ rfl
    apply congrArg String.mk
    have hb : rstripSlashL (String.mk ("https://www.".data ++ host)).data
        = "https".data ++ ':' :: '/' :: '/' :: (("www.".data ++ host) ++ []) := by
      rw [show (String.mk ("https://www.".data ++ host)).data
            = "https://www.".data ++ host from rfl,
        rstripSlashL_no_trailing _ _ hne hslash, List.append_nil]
      simp
    rw [hb, pyUrljoinRoot_eq "https".data ("www.".data ++ host) [] _ (by decide) hwhost rfl]
    simp only [List.append_assoc]
    rfl
  · have hsch1 : startsWithL "http://".data (String.mk host).data = false :=
      startsWithL_false_of_no_slash _ _ (by decide) hhost
    have hsch2 : startsWithL "https://".data (String.mk host).data = false :=
      startsWithL_false_of_no_slash _ _ (by decide) hhost
    have hpre : msSchemePrefixed ⟨host⟩ = ⟨"https://".data ++ host⟩ := by
      unfold msSchemePrefixed
      rw [hsch1, hsch2]
      rfl
    have hnorm : msNormalizeWebsite ⟨host⟩ = ⟨"https://www.".data ++ host⟩ := by
      unfold msNormalizeWebsite
      rw [hpre]
      rw [show (String.mk ("https://".data ++ host)).data
            = "https".data ++ ':' :: '/' :: '/' :: host from rfl,
        splitScheme_append "https".data _ (by decide)]
      dsimp only
      rw [takeWhileAll _ hhost, hww]
      simp only [Bool.false_eq_true, if_false, List.drop_length]
      apply congrArg String.mk
      rw [show List.takeWhile isPathChar ([] : List Char) = [] from rfl, List.append_nil]
      simp
    unfold msEidUrl
    rw [hnorm]
    apply congrArg₂ (fun (a : String) (b : String) => a ++ b) ?_ rfl
    apply congrArg String.mk
    have hb : rstripSlashL (String.mk ("https://www.".data ++ host)).data
        = "https".data ++ ':' :: '/' :: '/' :: (("www.".data ++ host) ++ []) := by
      rw [show (String.mk ("https://www.".data ++ host)).data
            = "https://www.".data ++ host from rfl,
        rstripSlashL_no_trailing _ _ hne hslash, List.append_nil]
      simp
    rw [hb, pyUrljoinRoot_eq "https".data ("www.".data ++ host) [] _ (by decide) hwhost rfl]
    simp only [List.append_assoc]
    rfl

/-- C8 amended, witness: the amended theorem at host `example.com`, path
`home` and id 7. -/
theorem url_construction_amended_witness :
    msEidUrl ⟨"example.com".data⟩ 7
      = ⟨"https://www.".data ++ "example.com".data
          ++ "/directory.aspx?EID=".data ++ (Nat.repr 7).data⟩ :=
  (url_construction_amended "example.com".data "home".data 7
    (by decide) (by decide) (by decide) (by decide) (by decide)).2.2.2.2

end NWACC
